import Mathlib

/-!
Verification development for the CrewAd "folder-in, ad-out" pipeline.

The repository ships two reference front-ends
(`folder-in-ad-out/frontend/src/App.jsx` and the plain-React variant kept as
an unnamed source part) plus documentation of a seven-stage backend pipeline
(curate, script, direct, narrate, music, edit, qa).  The backend orchestrator
and status store themselves are not part of the source tree; where a claim is
about them, the corresponding definitions are modelled from the spec and say
so in their doc comment.  All front-end functions below are translated
directly from the JavaScript sources.
-/

/-- Status of one pipeline stage, as used by the stage records
(`pending | running | completed | failed`). -/
inductive StageStatus where
  | pending
  | running
  | completed
  | failed
deriving DecidableEq, Repr

/-- One per-stage status record of a run: stage name, status and optional
error detail. -/
structure StageRecord where
  step : String
  status : StageStatus
  error : Option String
deriving DecidableEq, Repr

/-- The fixed ordered stage enumeration
{curate, script, direct, narrate, music, edit, qa}. -/
def stageOrder : List String :=
  ["curate", "script", "direct", "narrate", "music", "edit", "qa"]

/-- Step labels of `folder-in-ad-out/frontend/src/App.jsx` lines 220-228
(object key order preserved). -/
def stepLabels : List (String × String) :=
  [("curate", "Asset Curation"),
   ("script", "Script Generation"),
   ("direct", "Storyboard Creation"),
   ("narrate", "Voice Synthesis"),
   ("music", "Music Supervision"),
   ("edit", "Video Rendering"),
   ("qa", "Quality Assurance")]

/-- Step labels of the plain-React front-end (unnamed part 000, lines
249-257), textually identical to `stepLabels`. -/
def stepLabelsPart000 : List (String × String) :=
  [("curate", "Asset Curation"),
   ("script", "Script Generation"),
   ("direct", "Storyboard Creation"),
   ("narrate", "Voice Synthesis"),
   ("music", "Music Supervision"),
   ("edit", "Video Rendering"),
   ("qa", "Quality Assurance")]

/-- Run parameters as posted by the front-ends
(`RunAgentButton.js` lines 7-16 posts target_length, tone, voice, aspect). -/
structure RunParams where
  target_length : Int
  tone : String
  voice : String
  aspect : String
deriving DecidableEq, Repr

/-- A stage record still `pending`. -/
def pendingRec (s : String) : StageRecord := ⟨s, .pending, none⟩

/-- A stage record marked `completed`. -/
def completedRec (s : String) : StageRecord := ⟨s, .completed, none⟩

/-- A stage record marked `running`. -/
def runningRec (s : String) : StageRecord := ⟨s, .running, none⟩

/-- A stage record marked `failed` with error detail `e`. -/
def failedRec (s e : String) : StageRecord := ⟨s, .failed, some e⟩

/-- Modelled from the spec: the Pipeline Orchestrator of section 4.2 (the
backend `src/crew/run_crew.py` is not in the source tree).  Drives the given
stages in order; each executor either returns normally or signals failure
with an error detail.  On success the stage is marked `completed` and the
next stage runs; on failure the stage is marked `failed` with the error
detail and the run stops, leaving every later stage `pending`.  Returns the
final stage records together with the list of stages whose executor was
actually invoked. -/
def runStagesLog (exec : String → Except String Unit) :
    List String → List StageRecord × List String
  | [] => ([], [])
  | s :: rest =>
    match exec s with
    | .ok _ =>
      let r := runStagesLog exec rest
      (completedRec s :: r.1, s :: r.2)
    | .error e =>
      (failedRec s e :: rest.map pendingRec, [s])

/-- Modelled from the spec: final stage records of one run driven over the
fixed stage order. -/
def runPipeline (exec : String → Except String Unit) : List StageRecord :=
  (runStagesLog exec stageOrder).1

/-- Modelled from the spec: the stages whose executor was invoked during the
run. -/
def executedStages (exec : String → Except String Unit) : List String :=
  (runStagesLog exec stageOrder).2

/-- Modelled from the spec, section 3: overall run status is derived from the
stage records — `failed` iff any stage record is `failed`, `done` iff every
stage record is `completed`, otherwise `running`. -/
def overallStatus (recs : List StageRecord) : String :=
  if recs.any (fun r => r.status == .failed) then "failed"
  else if recs.all (fun r => r.status == .completed) then "done"
  else "running"

/-- A stage executor stub that always succeeds. -/
def allOkExec : RunParams → String → Except String Unit := fun _ _ => .ok ()

/-- Modelled from the spec: submitting a run with the given parameters runs
the orchestrator over the fixed stage order with the parameter-applied
executor. -/
def submitAndRun (params : RunParams)
    (exec : RunParams → String → Except String Unit) : List StageRecord :=
  (runStagesLog (exec params) stageOrder).1

/-- A stage executor stub that raises a fault at `narrate` and succeeds
elsewhere. -/
def narrateFault : String → Except String Unit := fun s =>
  if s == "narrate" then .error "injected narrate fault" else .ok ()

/-- ASCII lowercase of one character, as `toLowerCase` acts on the ASCII
status strings exchanged here. -/
def lowerChar (c : Char) : Char :=
  if 'A' ≤ c ∧ c ≤ 'Z' then Char.ofNat (c.toNat + 32) else c

/-- JavaScript `String.prototype.toLowerCase` restricted to ASCII strings
(all status strings in the sources are ASCII). -/
def jsToLower (s : String) : String :=
  String.mk (s.toList.map lowerChar)

/-- Poll-continuation decision of the plain-React front-end (unnamed part
000, lines 188-205): keep polling iff `statusData.overall_status ===
'running'` (strict, case-sensitive equality; a missing field never equals
the string). -/
def pollContinuePart000 (overall : Option String) : Bool :=
  overall == some "running"

/-- Finished-display decision of the plain-React front-end (unnamed part
000, line 347): the success panel shows iff `overall_status === 'success'`. -/
def finishedPart000 (overall : Option String) : Bool :=
  overall == some "success"

/-- Poll-continuation decision of `App.jsx` lines 163-182: lowercase
`(json?.overall_status || "")` and keep polling iff it is `"running"` or
`"started"`. -/
def pollContinueApp (overall : Option String) : Bool :=
  let o := jsToLower (overall.getD "")
  o == "running" || o == "started"

/-- Finished decision of `App.jsx` lines 230-231: the run is finished iff
the lowercased overall status is `"done"` or `"success"`. -/
def finishedApp (overall : Option String) : Bool :=
  let o := jsToLower (overall.getD "")
  o == "done" || o == "success"

/-- Modelled from the spec: the sequence of status-store states a polling
reader can observe while the orchestrator works through the remaining
stages, given the names of the stages already completed.  Section 4.2: the
orchestrator marks a stage `running` (observable immediately), invokes it,
then marks it `completed` (observable) and proceeds, or marks it `failed`
and stops. -/
def traceFrom (exec : String → Except String Unit) (done : List String) :
    List String → List (List StageRecord)
  | [] => [done.map completedRec]
  | s :: rest =>
    let snapRunning := done.map completedRec ++ runningRec s :: rest.map pendingRec
    match exec s with
    | .ok _ =>
      snapRunning :: ((done ++ [s]).map completedRec ++ rest.map pendingRec)
        :: traceFrom exec (done ++ [s]) rest
    | .error e =>
      [snapRunning, done.map completedRec ++ failedRec s e :: rest.map pendingRec]

/-- Modelled from the spec: every status-store state observable during one
run, from the initial all-pending state on. -/
def pipelineTrace (exec : String → Except String Unit) : List (List StageRecord) :=
  (stageOrder.map pendingRec) :: traceFrom exec [] stageOrder

/-- A snapshot made of a block of `completed` records, then at most one
`running` or `failed` record, then `pending` records. -/
def SnapshotWF (snap : List StageRecord) : Prop :=
  ∃ (pre : List String) (mid : List StageRecord) (post : List String),
    snap = pre.map completedRec ++ (mid ++ post.map pendingRec) ∧
    (mid = [] ∨ (∃ s, mid = [runningRec s]) ∨ ∃ s e, mid = [failedRec s e])

/-- The stage records never show a later record `completed` while an earlier
one is not `completed`. -/
def completedDownClosed (recs : List StageRecord) : Prop :=
  ∀ (i j : Nat) (hi : i < recs.length) (hj : j < recs.length), i ≤ j →
    (recs.get ⟨j, hj⟩).status = StageStatus.completed →
    (recs.get ⟨i, hi⟩).status = StageStatus.completed

/-- The stage records never show two stages simultaneously `running`. -/
def atMostOneRunning (recs : List StageRecord) : Prop :=
  ∀ (i j : Nat) (hi : i < recs.length) (hj : j < recs.length),
    (recs.get ⟨i, hi⟩).status = StageStatus.running →
    (recs.get ⟨j, hj⟩).status = StageStatus.running → i = j

/-- Modelled from the spec: the Status Store of section 4.1 — the backend
keeps an in-memory mapping from run identifier to that run's ordered stage
records (`src/crew/run_crew.py`, not in the source tree).  Represented as an
association list, newest entry first. -/
abbrev StatusStore := List (String × List StageRecord)

/-- One operation on the status store: submitting a run, or recording a
stage transition. -/
inductive StoreOp where
  | submitRun (runId : String)
  | setStage (runId stage : String) (st : StageStatus) (err : Option String)
deriving DecidableEq, Repr

/-- Modelled from the spec: `set(run_id, stage, status, extra?)` rewrites the
named stage's record within one run's record list. -/
def setStageRecords (recs : List StageRecord) (stage : String)
    (st : StageStatus) (err : Option String) : List StageRecord :=
  recs.map fun r => if r.step == stage then ⟨r.step, st, err⟩ else r

/-- Modelled from the spec: applying one operation to the store — submitting
a run registers it with every stage `pending`; a stage transition rewrites
the named run's records and touches no other run. -/
def applyOp (store : StatusStore) : StoreOp → StatusStore
  | .submitRun r => (r, stageOrder.map pendingRec) :: store
  | .setStage r stage st err =>
    store.map fun p => if p.1 == r then (p.1, setStageRecords p.2 stage st err) else p

/-- Modelled from the spec: the store reached from the empty store by a
sequence of operations. -/
def runOps (ops : List StoreOp) : StatusStore := ops.foldl applyOp []

/-- Modelled from the spec: `get(run_id)` — the status query returns the
run's stage records, or `none` (a distinguishable not-found result) for
unknown run ids. -/
def getRun (store : StatusStore) (runId : String) : Option (List StageRecord) :=
  (store.find? fun p => p.1 == runId).map Prod.snd

/-- The run ids submitted by a sequence of store operations. -/
def submittedIds (ops : List StoreOp) : List String :=
  ops.filterMap fun op =>
    match op with
    | .submitRun r => some r
    | _ => none

/-- One entry of the `steps` array as the front-ends receive it from the
status endpoint: step name, status string, optional extra payload. -/
structure FrontStep where
  step : String
  status : String
  extra : Option String
deriving DecidableEq, Repr

/-- The status JSON object as the front-ends receive it: optional
`overall_status` and optional `steps` array (either may be absent). -/
structure FrontStatus where
  overall_status : Option String
  steps : Option (List FrontStep)
deriving DecidableEq, Repr

/-- `getStepStatus` of App.jsx lines 203-211 (identical in part 000 lines
229-239): `pending` when the status object or its `steps` field is absent or
the step is not found; otherwise the step's own status if it is one of
`running`/`completed`/`failed`, else `pending`. -/
def getStepStatus (status : Option FrontStatus) (stepName : String) : String :=
  match status with
  | none => "pending"
  | some st =>
    match st.steps with
    | none => "pending"
    | some steps =>
      match steps.find? (fun s => s.step == stepName) with
      | none => "pending"
      | some stp =>
        if stp.status == "running" then "running"
        else if stp.status == "completed" then "completed"
        else if stp.status == "failed" then "failed"
        else "pending"

/-- `calculateProgress` of App.jsx lines 213-218 (identical in part 000
lines 241-247): 0 when the status object or its `steps` field is absent,
otherwise `(completed / 7) * 100` where `completed` counts the entries of
`steps` whose status is "completed" (no deduplication by step name).  The
JavaScript floating-point arithmetic is modelled as exact rationals. -/
def calculateProgress (status : Option FrontStatus) : ℚ :=
  match status with
  | none => 0
  | some st =>
    match st.steps with
    | none => 0
    | some steps =>
      let total : ℚ := 7
      let done : ℚ := ((steps.filter fun s => s.status == "completed").length : ℚ)
      done / total * 100

/-- Longest leading digit run of `cs`, read base 10; `none` when there is no
leading digit (JavaScript `parseInt` yields `NaN` then). -/
def parseDigits (cs : List Char) : Option Nat :=
  let ds := cs.takeWhile Char.isDigit
  if ds.isEmpty then none
  else some (ds.foldl (fun acc c => acc * 10 + (c.toNat - 48)) 0)

/-- JavaScript `parseInt(s, 10)`: skip leading whitespace, read an optional
sign, then the longest digit run; `none` (for `NaN`) when no digit follows. -/
def parseIntJS (s : String) : Option Int :=
  let cs := s.toList.dropWhile fun c => c == ' ' || c == '\t' || c == '\n' || c == '\r'
  match cs with
  | '-' :: rest => (parseDigits rest).map fun n => -(n : Int)
  | '+' :: rest => (parseDigits rest).map fun n => (n : Int)
  | rest => (parseDigits rest).map fun n => (n : Int)

/-- Target-length normalization of App.jsx lines 247-251:
`Math.max(0, parseInt(e.target.value || "0", 10))`.  The empty string is
falsy and replaced by "0"; `Math.max(0, NaN)` is `NaN`, kept as `none`. -/
def normalizeTargetLength (value : String) : Option Int :=
  let s := if value == "" then "0" else value
  (parseIntJS s).map fun n => max 0 n

/-- The four-element unit array of `formatFileSize` (App.jsx line 53). -/
def sizesUnits : List String := ["Bytes", "KB", "MB", "GB"]

/-- The unit index `Math.floor(Math.log(bytes) / Math.log(1024))` of
`formatFileSize`, with the real logarithms modelled exactly: the floor of
the base-1024 logarithm. -/
def fileSizeUnitIndex (bytes : Nat) : Nat := Nat.log 1024 bytes

/-- `formatFileSize` of App.jsx lines 50-56 (identical in part 000 lines
75-81): "0 Bytes" at 0, otherwise the value scaled by `1024^i` paired with
`sizes[i]`.  The scaled value is kept as an exact rational (the
`toFixed(2)`/`parseFloat` decimal rendering is not modelled); `none` models
the out-of-bounds array read `sizes[i]` yielding `undefined`. -/
def formatFileSize (bytes : Nat) : Option (ℚ × String) :=
  if bytes = 0 then some (0, "0 Bytes")
  else
    (sizesUnits.get? (fileSizeUnitIndex bytes)).map fun u =>
      ((bytes : ℚ) / (1024 : ℚ) ^ fileSizeUnitIndex bytes, u)

/-- State of the upload form component (App.jsx lines 6-10): selected file
names, uploading flag, drag-over flag, error message. -/
structure UploadState where
  files : List String
  uploading : Bool
  dragOver : Bool
  error : String
deriving DecidableEq, Repr

/-- `uploadFiles` of App.jsx lines 26-48 (part 000 lines 40-73 is
equivalent).  The network outcome is passed in as `response` (`ok` with the
returned run id, or an error message).  Returns the final component state,
whether an upload request was issued, and the run id handed to `onUploaded`
if any.  With no files selected it only sets the error message and returns;
otherwise it sets `uploading` and clears the error, performs the request,
records the outcome and finally clears `uploading`. -/
def uploadFiles (st : UploadState) (response : Except String String) :
    UploadState × Bool × Option String :=
  if st.files.length = 0 then
    ({ st with error := "Please select files to upload" }, false, none)
  else
    match response with
    | .ok runId => ({ st with uploading := false, error := "" }, true, some runId)
    | .error msg => ({ st with uploading := false, error := msg }, true, none)

/-- Upload-button disabled predicate of App.jsx line 117:
`disabled={uploading || !files.length}`. -/
def uploadButtonDisabled (st : UploadState) : Bool :=
  st.uploading || st.files.isEmpty

/-- Upload-button disabled predicate of
`frontend/components/UploadForm.js` line 18: `disabled={!files.length}`. -/
def uploadButtonDisabledSimple (files : List String) : Bool :=
  files.isEmpty

/-- C1: submitting a run with parameters {length=30, tone="confident",
aspect="16:9"} through a pipeline whose stage executors always succeed
yields overall status `done` with exactly 7 stage records, all `completed`,
in the fixed order {curate, script, direct, narrate, music, edit, qa}; and
the stage enumeration used by both front-ends' step labels is exactly these
7 names in exactly this order. -/
theorem roundtrip_allOk_done :
    overallStatus (submitAndRun ⟨30, "confident", "af_heart", "16:9"⟩ allOkExec) = "done" ∧
    (submitAndRun ⟨30, "confident", "af_heart", "16:9"⟩ allOkExec).length = 7 ∧
    (submitAndRun ⟨30, "confident", "af_heart", "16:9"⟩ allOkExec).all
      (fun r => r.status == StageStatus.completed) = true ∧
    (submitAndRun ⟨30, "confident", "af_heart", "16:9"⟩ allOkExec).map StageRecord.step =
      ["curate", "script", "direct", "narrate", "music", "edit", "qa"] ∧
    stepLabels.map Prod.fst = stageOrder ∧
    stepLabelsPart000.map Prod.fst = stageOrder := by
  decide

/-- C6: the two reference front-ends' status handling disagrees: on
`overall_status = "started"` the part-000 front-end stops polling while the
App.jsx front-end keeps polling, and on `overall_status = "done"` the
part-000 front-end does not treat the run as finished while the App.jsx
front-end does. -/
theorem frontends_disagree_on_overall_status :
    pollContinuePart000 (some "started") = false ∧
    pollContinueApp (some "started") = true ∧
    pollContinuePart000 (some "started") ≠ pollContinueApp (some "started") ∧
    finishedPart000 (some "done") = false ∧
    finishedApp (some "done") = true ∧
    finishedPart000 (some "done") ≠ finishedApp (some "done") := by
  decide

/-- Helper: in the orchestrator model, any record strictly after a failed
record is pending, and the execution log is exactly the stages up to and
including the failed one. -/
theorem runStagesLog_failed (exec : String → Except String Unit)
    (l : List String) :
    ∀ (i j : Nat) (ri rj : StageRecord), i < j →
      (runStagesLog exec l).1.get? i = some ri → ri.status = .failed →
      (runStagesLog exec l).1.get? j = some rj →
      rj.status = .pending ∧ (runStagesLog exec l).2 = l.take (i + 1) := by
  induction l with
  | nil =>
    intro i j ri rj hij hi hfail hj
    simp [runStagesLog] at hi
  | cons s rest ih =>
    intro i j ri rj hij hi hfail hj
    cases hx : exec s with
    | ok u =>
      simp only [runStagesLog, hx] at hi hj ⊢
      cases i with
      | zero =>
        simp only [List.get?_cons_zero, Option.some.injEq] at hi
        rw [← hi] at hfail
        simp [completedRec] at hfail
      | succ i' =>
        cases j with
        | zero => omega
        | succ j' =>
          simp only [List.get?_cons_succ] at hi hj
          obtain ⟨hpend, hlog⟩ := ih i' j' ri rj (by omega) hi hfail hj
          exact ⟨hpend, by simp [hlog]⟩
    | error e =>
      simp only [runStagesLog, hx] at hi hj ⊢
      cases i with
      | zero =>
        cases j with
        | zero => omega
        | succ j' =>
          simp only [List.get?_cons_succ] at hj
          simp at hj
          obtain ⟨a, _, ha⟩ := hj
          refine ⟨?_, by simp⟩
          rw [← ha]
          rfl
      | succ i' =>
        simp only [List.get?_cons_succ] at hi
        simp at hi
        obtain ⟨a, _, ha⟩ := hi
        rw [← ha] at hfail
        simp [pendingRec] at hfail

/-- C2: once a stage is marked failed, every later stage record stays
pending and no later stage executor is ever invoked (the execution log is
exactly the stages up to and including the failed one); concretely, a fault
injected into `narrate` yields overall status `failed` with curate, script
and direct `completed`, narrate `failed` with a non-empty error detail, and
music, edit and qa `pending`. -/
theorem failed_stage_stops_pipeline :
    (∀ (exec : String → Except String Unit) (i j : Nat) (ri rj : StageRecord),
      i < j → (runPipeline exec).get? i = some ri → ri.status = .failed →
      (runPipeline exec).get? j = some rj →
      rj.status = .pending ∧ executedStages exec = stageOrder.take (i + 1)) ∧
    overallStatus (runPipeline narrateFault) = "failed" ∧
    (runPipeline narrateFault).map (fun r => (r.step, r.status)) =
      [("curate", .completed), ("script", .completed), ("direct", .completed),
       ("narrate", .failed), ("music", .pending), ("edit", .pending),
       ("qa", .pending)] ∧
    (∃ e, (runPipeline narrateFault).get? 3 = some (failedRec "narrate" e) ∧ e ≠ "") ∧
    executedStages narrateFault = ["curate", "script", "direct", "narrate"] := by
  refine ⟨?_, by decide, by decide, ⟨"injected narrate fault", by decide, by decide⟩, by decide⟩
  intro exec i j ri rj hij hi hfail hj
  exact runStagesLog_failed exec stageOrder i j ri rj hij hi hfail hj

/-- Witness for `failed_stage_stops_pipeline`, at the narrate-fault executor
with the failed record at index 3 and the observed later record at index 4. -/
theorem failed_stage_stops_pipeline_witness :
    (pendingRec "music").status = StageStatus.pending ∧
    executedStages narrateFault = stageOrder.take 4 :=
  failed_stage_stops_pipeline.1 narrateFault 3 4
    (failedRec "narrate" "injected narrate fault") (pendingRec "music")
    (by decide) (by decide) (by decide) (by decide)

/-- Helper: a record drawn from a completed block is completed. -/
theorem status_of_mem_completed {a : StageRecord} {l : List String}
    (h : a ∈ l.map completedRec) : a.status = StageStatus.completed := by
  obtain ⟨x, _, rfl⟩ := List.mem_map.mp h
  rfl

/-- Helper: a record drawn from a pending block is pending. -/
theorem status_of_mem_pending {a : StageRecord} {l : List String}
    (h : a ∈ l.map pendingRec) : a.status = StageStatus.pending := by
  obtain ⟨x, _, rfl⟩ := List.mem_map.mp h
  rfl

/-- Helper: every snapshot produced by the orchestrator trace is a block of
completed records, then at most one running or failed record, then pending
records. -/
theorem traceFrom_wf (exec : String → Except String Unit) :
    ∀ (rest done : List String), ∀ snap ∈ traceFrom exec done rest, SnapshotWF snap := by
  intro rest
  induction rest with
  | nil =>
    intro done snap hsnap
    simp only [traceFrom, List.mem_singleton] at hsnap
    exact ⟨done, [], [], by simp [hsnap], Or.inl rfl⟩
  | cons s rest ih =>
    intro done snap hsnap
    cases hx : exec s with
    | ok u =>
      simp only [traceFrom, hx, List.mem_cons] at hsnap
      rcases hsnap with h | h | h
      · exact ⟨done, [runningRec s], rest, by simp [h], Or.inr (Or.inl ⟨s, rfl⟩)⟩
      · exact ⟨done ++ [s], [], rest, by simp [h], Or.inl rfl⟩
      · exact ih (done ++ [s]) snap h
    | error e =>
      simp only [traceFrom, hx, List.mem_cons, List.mem_singleton,
        List.not_mem_nil, or_false] at hsnap
      rcases hsnap with h | h
      · exact ⟨done, [runningRec s], rest, by simp [h], Or.inr (Or.inl ⟨s, rfl⟩)⟩
      · exact ⟨done, [failedRec s e], rest, by simp [h], Or.inr (Or.inr ⟨s, e, rfl⟩)⟩

/-- Helper: in a well-formed snapshot, any record left of a completed record
is completed (stated pairwise). -/
theorem snapshotWF_pairwise_completed {snap : List StageRecord} (h : SnapshotWF snap) :
    snap.Pairwise (fun a b =>
      b.status = StageStatus.completed → a.status = StageStatus.completed) := by
  obtain ⟨pre, mid, post, rfl, hmid⟩ := h
  rw [List.pairwise_append]
  refine ⟨?_, ?_, ?_⟩
  · exact List.pairwise_of_forall_mem_list fun a ha b _ _ => status_of_mem_completed ha
  · rw [List.pairwise_append]
    refine ⟨?_, ?_, ?_⟩
    · rcases hmid with rfl | ⟨s, rfl⟩ | ⟨s, e, rfl⟩
      · exact List.Pairwise.nil
      · exact List.pairwise_singleton _ _
      · exact List.pairwise_singleton _ _
    · exact List.pairwise_of_forall_mem_list fun a _ b hb hcb =>
        absurd hcb (by simp [status_of_mem_pending hb])
    · intro a _ b hb hcb
      exact absurd hcb (by simp [status_of_mem_pending hb])
  · intro a ha b _ _
    exact status_of_mem_completed ha

/-- Helper: in a well-formed snapshot, no two records are both running
(stated pairwise). -/
theorem snapshotWF_pairwise_running {snap : List StageRecord} (h : SnapshotWF snap) :
    snap.Pairwise (fun a b =>
      ¬(a.status = StageStatus.running ∧ b.status = StageStatus.running)) := by
  obtain ⟨pre, mid, post, rfl, hmid⟩ := h
  rw [List.pairwise_append]
  refine ⟨?_, ?_, ?_⟩
  · exact List.pairwise_of_forall_mem_list fun a ha b _ hab =>
      absurd hab.1 (by simp [status_of_mem_completed ha])
  · rw [List.pairwise_append]
    refine ⟨?_, ?_, ?_⟩
    · rcases hmid with rfl | ⟨s, rfl⟩ | ⟨s, e, rfl⟩
      · exact List.Pairwise.nil
      · exact List.pairwise_singleton _ _
      · exact List.pairwise_singleton _ _
    · exact List.pairwise_of_forall_mem_list fun a ha b _ hab =>
        absurd hab.1 (by simp [status_of_mem_pending ha])
    · intro a _ b hb hab
      exact absurd hab.2 (by simp [status_of_mem_pending hb])
  · intro a ha b _ hab
    exact absurd hab.1 (by simp [status_of_mem_completed ha])

/-- Helper: the pairwise completed relation gives the down-closed property. -/
theorem snapshotWF_downClosed {snap : List StageRecord} (h : SnapshotWF snap) :
    completedDownClosed snap := by
  have hp := snapshotWF_pairwise_completed h
  intro i j hi hj hij hcomp
  rcases Nat.eq_or_lt_of_le hij with heq | hlt
  · subst heq
    exact hcomp
  · have hr := List.pairwise_iff_getElem.mp hp i j hi hj hlt
    simp only [List.get_eq_getElem]
    exact hr (by simpa only [List.get_eq_getElem] using hcomp)

/-- Helper: the pairwise running relation gives at-most-one-running. -/
theorem snapshotWF_oneRunning {snap : List StageRecord} (h : SnapshotWF snap) :
    atMostOneRunning snap := by
  have hp := snapshotWF_pairwise_running h
  intro i j hi hj hri hrj
  rcases lt_trichotomy i j with hlt | heq | hgt
  · exact absurd ⟨by simpa only [List.get_eq_getElem] using hri,
      by simpa only [List.get_eq_getElem] using hrj⟩
      (List.pairwise_iff_getElem.mp hp i j hi hj hlt)
  · exact heq
  · exact absurd ⟨by simpa only [List.get_eq_getElem] using hrj,
      by simpa only [List.get_eq_getElem] using hri⟩
      (List.pairwise_iff_getElem.mp hp j i hj hi hgt)

/-- C3: every status-store state observable during a run shows
monotonically-advancing stage records — it is never observed that a later
stage is completed while an earlier stage is not completed, and never
observed that two stages are simultaneously running. -/
theorem observed_snapshots_monotonic :
    ∀ (exec : String → Except String Unit) (snap : List StageRecord),
      snap ∈ pipelineTrace exec → completedDownClosed snap ∧ atMostOneRunning snap := by
  intro exec snap hsnap
  have hwf : SnapshotWF snap := by
    rcases List.mem_cons.mp hsnap with h | h
    · exact ⟨[], [], stageOrder, by simp [h], Or.inl rfl⟩
    · exact traceFrom_wf exec stageOrder [] snap h
  exact ⟨snapshotWF_downClosed hwf, snapshotWF_oneRunning hwf⟩

/-- Witness for `observed_snapshots_monotonic`, at the always-succeeding
executor and the initial all-pending snapshot. -/
theorem observed_snapshots_monotonic_witness :
    completedDownClosed (stageOrder.map pendingRec) ∧
    atMostOneRunning (stageOrder.map pendingRec) :=
  observed_snapshots_monotonic (fun _ => .ok ()) (stageOrder.map pendingRec)
    (by simp [pipelineTrace])

/-- Helper: a run id that is neither a key of the starting store nor
submitted by any of the operations is not a key of the resulting store. -/
theorem runOps_keys (runId : String) :
    ∀ (ops : List StoreOp) (store : StatusStore),
      runId ∉ store.map Prod.fst → runId ∉ submittedIds ops →
      runId ∉ (ops.foldl applyOp store).map Prod.fst := by
  intro ops
  induction ops with
  | nil =>
    intro store h _
    simpa using h
  | cons op rest ih =>
    intro store hstore hops
    have hrest : runId ∉ submittedIds rest := by
      intro h
      apply hops
      cases op with
      | submitRun r => simp [submittedIds, List.filterMap_cons] at h ⊢; exact Or.inr h
      | setStage r stage st err => simpa [submittedIds, List.filterMap_cons] using h
    simp only [List.foldl_cons]
    apply ih _ _ hrest
    cases op with
    | submitRun r =>
      have hr : runId ≠ r := by
        intro h
        subst h
        exact hops (by simp [submittedIds, List.filterMap_cons])
      simp only [applyOp, List.map_cons, List.mem_cons]
      rintro (h | h)
      · exact hr h
      · exact hstore h
    | setStage r stage st err =>
      have hkeys :
          ((store.map fun p =>
            if p.1 == r then (p.1, setStageRecords p.2 stage st err) else p).map Prod.fst) =
            store.map Prod.fst := by
        rw [List.map_map]
        apply List.map_congr_left
        intro p _
        by_cases h : p.1 = r <;> simp [h]
      show runId ∉ (applyOp store (StoreOp.setStage r stage st err)).map Prod.fst
      simp only [applyOp]
      rw [hkeys]
      exact hstore

/-- C4: the status query for a run id that was never submitted returns the
distinguishable not-found result `none` — never an empty success and never a
list of stages all reported as pending. -/
theorem unknown_run_not_found (ops : List StoreOp) (runId : String)
    (h : runId ∉ submittedIds ops) :
    getRun (runOps ops) runId = none ∧
    getRun (runOps ops) runId ≠ some [] ∧
    getRun (runOps ops) runId ≠ some (stageOrder.map pendingRec) := by
  have hkeys : runId ∉ (runOps ops).map Prod.fst :=
    runOps_keys runId ops [] (by simp) h
  have hfind : (runOps ops).find? (fun p => p.1 == runId) = none := by
    rw [List.find?_eq_none]
    intro p hp hpe
    exact hkeys (List.mem_map.mpr ⟨p, hp, by simpa using hpe⟩)
  refine ⟨?_, ?_, ?_⟩ <;> simp [getRun, hfind]

/-- Witness for `unknown_run_not_found`: a store holding one submitted,
partially advanced run, queried for an id that was never submitted. -/
theorem unknown_run_not_found_witness :
    getRun (runOps [StoreOp.submitRun "run-a",
      StoreOp.setStage "run-a" "curate" StageStatus.running none])
      "invalid-run-id-12345" = none ∧
    getRun (runOps [StoreOp.submitRun "run-a",
      StoreOp.setStage "run-a" "curate" StageStatus.running none])
      "invalid-run-id-12345" ≠ some [] ∧
    getRun (runOps [StoreOp.submitRun "run-a",
      StoreOp.setStage "run-a" "curate" StageStatus.running none])
      "invalid-run-id-12345" ≠ some (stageOrder.map pendingRec) :=
  unknown_run_not_found
    [StoreOp.submitRun "run-a",
      StoreOp.setStage "run-a" "curate" StageStatus.running none]
    "invalid-run-id-12345" (by decide)

/-- C5: overall status derivation is a pure function of the stage record
list — two status objects carrying equal `steps` lists (no intervening
writes) yield equal `getStepStatus` and `calculateProgress` results, so
repeated queries are idempotent reads. -/
theorem status_derivation_pure (s₁ s₂ : FrontStatus) (name : String)
    (h : s₁.steps = s₂.steps) :
    getStepStatus (some s₁) name = getStepStatus (some s₂) name ∧
    calculateProgress (some s₁) = calculateProgress (some s₂) := by
  obtain ⟨o₁, t₁⟩ := s₁
  obtain ⟨o₂, t₂⟩ := s₂
  have h2 : t₁ = t₂ := h
  subst h2
  exact ⟨rfl, rfl⟩

/-- Witness for `status_derivation_pure`: two repeated reads of the same
steps list, differing only in the unrelated `overall_status` field. -/
theorem status_derivation_pure_witness :
    getStepStatus (some ⟨some "running", some [⟨"curate", "completed", none⟩]⟩) "curate" =
      getStepStatus (some ⟨some "done", some [⟨"curate", "completed", none⟩]⟩) "curate" ∧
    calculateProgress (some ⟨some "running", some [⟨"curate", "completed", none⟩]⟩) =
      calculateProgress (some ⟨some "done", some [⟨"curate", "completed", none⟩]⟩) :=
  status_derivation_pure ⟨some "running", some [⟨"curate", "completed", none⟩]⟩
    ⟨some "done", some [⟨"curate", "completed", none⟩]⟩ "curate" rfl

/-- Counterexample to C7 as stated: clearing the target-length field (the
empty string) is normalized to 0, an integer outside the documented 5..120
range declared by the field's min/max attributes. -/
theorem target_length_escapes_range :
    normalizeTargetLength "" = some 0 ∧
    ¬ (∀ n : Int, normalizeTargetLength "" = some n → 5 ≤ n ∧ n ≤ 120) := by
  refine ⟨by decide, fun h => ?_⟩
  have h5 := (h 0 (by decide)).1
  omega

/-- C7 amended: the normalization `Math.max(0, parseInt(value || "0", 10))`
yields a nonnegative integer whenever the typed string parses to an integer
(and no integer at all — JavaScript `NaN` — otherwise); it does not bound
the result to the 5..120 range declared by the field's min/max attributes. -/
theorem target_length_nonneg (s : String) (n : Int)
    (h : normalizeTargetLength s = some n) : 0 ≤ n := by
  unfold normalizeTargetLength at h
  rcases Option.map_eq_some'.mp h with ⟨m, _, hm⟩
  rw [← hm]
  exact le_max_left 0 m

/-- Witness for `target_length_nonneg` at the default input "30". -/
theorem target_length_nonneg_witness :
    normalizeTargetLength "30" = some 30 ∧ (0 : Int) ≤ 30 :=
  ⟨by decide, target_length_nonneg "30" 30 (by decide)⟩

/-- Helper: `calculateProgress` on a present steps list, in closed form. -/
theorem calculateProgress_some (os : Option String) (steps : List FrontStep) :
    calculateProgress (some ⟨os, some steps⟩) =
      100 * ((steps.filter fun s => s.status == "completed").length : ℚ) / 7 := by
  show ((steps.filter fun s => s.status == "completed").length : ℚ) / 7 * 100 =
    100 * ((steps.filter fun s => s.status == "completed").length : ℚ) / 7
  ring

/-- C8: `calculateProgress` returns exactly 100·c/7 where c counts the
entries of the steps list whose status is "completed", and 0 when the status
object or its steps field is absent; the entries are not deduplicated by
name, so more than 7 completed entries push the progress above 100. -/
theorem calculateProgress_formula :
    calculateProgress none = 0 ∧
    (∀ os : Option String, calculateProgress (some ⟨os, none⟩) = 0) ∧
    (∀ (os : Option String) (steps : List FrontStep),
      calculateProgress (some ⟨os, some steps⟩) =
        100 * ((steps.filter fun s => s.status == "completed").length : ℚ) / 7) ∧
    (∀ (os : Option String) (steps : List FrontStep),
      7 < (steps.filter fun s => s.status == "completed").length →
      100 < calculateProgress (some ⟨os, some steps⟩)) := by
  refine ⟨rfl, fun os => rfl, calculateProgress_some, ?_⟩
  intro os steps h
  rw [calculateProgress_some]
  have h8 : (8 : ℚ) ≤ ((steps.filter fun s => s.status == "completed").length : ℚ) := by
    exact_mod_cast h
  linarith

/-- Witness for `calculateProgress_formula`: eight duplicated completed
entries yield a progress value above 100. -/
theorem calculateProgress_formula_witness :
    100 < calculateProgress
      (some ⟨none, some (List.replicate 8 ⟨"curate", "completed", none⟩)⟩) :=
  calculateProgress_formula.2.2.2 none
    (List.replicate 8 ⟨"curate", "completed", none⟩) (by decide)

/-- C9: `formatFileSize` returns "0 Bytes" at 0; for positive byte counts
below 1024^4 the computed unit index is a valid index into the four-element
sizes array and the result pairs a value with one of the four units; from
1024^4 on the index exceeds the array bounds (the JS code would read
`undefined`). -/
theorem formatFileSize_bounds (b : Nat) :
    (b = 0 → formatFileSize b = some (0, "0 Bytes")) ∧
    (0 < b → b < 1024 ^ 4 → fileSizeUnitIndex b < sizesUnits.length ∧
      ∃ q u, formatFileSize b = some (q, u) ∧ u ∈ sizesUnits) ∧
    (1024 ^ 4 ≤ b → sizesUnits.length ≤ fileSizeUnitIndex b ∧ formatFileSize b = none) := by
  refine ⟨fun h => by simp [formatFileSize, h], fun hpos hlt => ?_, fun hge => ?_⟩
  · have hb0 : b ≠ 0 := Nat.pos_iff_ne_zero.mp hpos
    have hidx : fileSizeUnitIndex b < 4 := by
      unfold fileSizeUnitIndex
      exact (Nat.lt_pow_iff_log_lt (by norm_num) hb0).mp hlt
    have hlen : fileSizeUnitIndex b < sizesUnits.length := by
      simpa [sizesUnits] using hidx
    refine ⟨hlen, (b : ℚ) / (1024 : ℚ) ^ fileSizeUnitIndex b,
      sizesUnits.get ⟨fileSizeUnitIndex b, hlen⟩, ?_, List.get_mem _ _ _⟩
    simp [formatFileSize, hb0, List.get?_eq_get hlen]
  · have hb0 : b ≠ 0 := by
      have h4 : 0 < 1024 ^ 4 := by norm_num
      omega
    have hlog : 4 ≤ fileSizeUnitIndex b := by
      unfold fileSizeUnitIndex
      exact (Nat.pow_le_iff_le_log (by norm_num) hb0).mp hge
    have hnone : sizesUnits.get? (fileSizeUnitIndex b) = none := by
      rw [List.get?_eq_none]
      simpa [sizesUnits] using hlog
    have hlen4 : sizesUnits.length ≤ fileSizeUnitIndex b := by
      have h4 : sizesUnits.length = 4 := rfl
      omega
    refine ⟨hlen4, ?_⟩
    rw [formatFileSize, if_neg hb0, hnone]
    rfl

/-- Witness for `formatFileSize_bounds`: zero bytes, a 2 KiB file, and the
first out-of-range byte count. -/
theorem formatFileSize_bounds_witness :
    formatFileSize 0 = some (0, "0 Bytes") ∧
    fileSizeUnitIndex 2048 < sizesUnits.length ∧
    sizesUnits.length ≤ fileSizeUnitIndex (1024 ^ 4) :=
  ⟨(formatFileSize_bounds 0).1 rfl,
    ((formatFileSize_bounds 2048).2.1 (by decide) (by decide)).1,
    ((formatFileSize_bounds (1024 ^ 4)).2.2 (le_refl _)).1⟩

/-- C10: invoking `uploadFiles` with an empty selected-file list issues no
upload request and leaves the component state unchanged except that the
error message becomes "Please select files to upload" (in particular the
uploading flag keeps its value and no run id is delivered); moreover the
upload button is disabled whenever the file list is empty, in both front-end
variants. -/
theorem uploadFiles_empty (st : UploadState) (resp : Except String String)
    (h : st.files = []) :
    uploadFiles st resp =
      ({ st with error := "Please select files to upload" }, false, none) ∧
    (uploadFiles st resp).1.uploading = st.uploading ∧
    (uploadFiles st resp).1.files = st.files ∧
    (uploadFiles st resp).1.dragOver = st.dragOver ∧
    uploadButtonDisabled st = true ∧
    uploadButtonDisabledSimple st.files = true := by
  have hlen : st.files.length = 0 := by simp [h]
  refine ⟨?_, ?_, ?_, ?_, ?_, ?_⟩ <;>
    simp [uploadFiles, uploadButtonDisabled, uploadButtonDisabledSimple, hlen, h]

/-- Witness for `uploadFiles_empty`: the freshly mounted form state with no
files selected and a network error that is never reached. -/
theorem uploadFiles_empty_witness :
    uploadFiles ⟨[], false, false, ""⟩ (Except.error "network down") =
      (⟨[], false, false, "Please select files to upload"⟩, false, none) ∧
    (uploadFiles ⟨[], false, false, ""⟩ (Except.error "network down")).1.uploading = false ∧
    (uploadFiles ⟨[], false, false, ""⟩ (Except.error "network down")).1.files = [] ∧
    (uploadFiles ⟨[], false, false, ""⟩ (Except.error "network down")).1.dragOver = false ∧
    uploadButtonDisabled ⟨[], false, false, ""⟩ = true ∧
    uploadButtonDisabledSimple [] = true :=
  uploadFiles_empty ⟨[], false, false, ""⟩ (Except.error "network down") rfl
